import Mathlib

/-!
# Verification of the CV customization core (`src/cv_generator.py`)

Shallow embedding of the data model and the customization logic of
`CVGenerator` / `CVManager`.  Python strings are Lean `String`s; Python's
`str.lower()` is modelled per character by `Char.toLower` (all string
literals involved are ASCII, where the two agree); Python's substring
test `a in b` is modelled by list-infix on the character lists; Python's
`list.sort(key=..., reverse=True)` is modelled by a stable descending
insertion sort (CPython's sort is stable, and `reverse=True` keeps
equal-key elements in their original order).

The dynamic attribute `relevance_score` that `_prioritize_projects`
attaches to `Project` instances is modelled as an `Option Nat` field of
`Project`: `none` means the attribute is absent, `some n` means it is
present with value `n`.
-/

namespace CVGen

/-- `str.lower()` on a Python string (ASCII). -/
def pyLower (s : String) : String := String.mk (s.data.map Char.toLower)

/-- `keyword.lower() in text.lower()`: case-insensitive substring test,
taken from the scoring loops of `_prioritize_projects` and
`_prioritize_courses`. -/
def kwMatch (keyword text : String) : Bool :=
  decide ((pyLower keyword).data <:+: (pyLower text).data)

/-- The score accumulated by the loops
`for keyword in job_keywords: if keyword.lower() in text.lower(): score += 1`. -/
def relevanceScore (job_keywords : List String) (text : String) : Nat :=
  job_keywords.countP (fun k => kwMatch k text)

/-- Modelled from the spec: `occursSpec k t` holds when keyword `k`
occurs as a case-insensitive substring anywhere in `t` (spec §4.1).
Used only to compare the code's scoring loop against the spec's words. -/
def occursSpec (keyword text : String) : Prop :=
  (keyword.data.map Char.toLower) <:+: (text.data.map Char.toLower)

instance (k t : String) : Decidable (occursSpec k t) := by
  unfold occursSpec; infer_instance

/-! ## Data model (`@dataclass` definitions) -/

structure PersonalInfo where
  name : String
  email : String
  phone : String
  location : String
  linkedin : String := ""
  github : String := ""
  portfolio : String := ""
deriving DecidableEq

structure WorkExperience where
  title : String
  company : String
  period : String
  responsibilities : List String
  technologies : Option (List String) := none
deriving DecidableEq

/-- `Project` dataclass.  The extra field `relevance_score` models the
dynamic attribute temporarily attached by `_prioritize_projects`
(`none` = attribute absent, as on every freshly constructed Project). -/
structure Project where
  name : String
  description : String
  technologies : List String
  achievements : List String
  relevance_score : Option Nat := none
deriving DecidableEq

structure Education where
  degree : String
  institution : String
  period : String
  details : String := ""
deriving DecidableEq

/-- `CVData` dataclass.  The `skills` dict is modelled as an
insertion-ordered association list (Python dicts preserve insertion
order); its keys are unique in any value built from a Python dict. -/
structure CVData where
  personal_info : PersonalInfo
  summary : String
  work_experience : List WorkExperience
  projects : List Project
  education : List Education
  skills : List (String × List String)
  courses : List String
  languages : List String
  additional : List String
deriving DecidableEq

/-! ## `_customize_summary` -/

def analystTitles : List String := ["data analyst", "data scientist", "analytics"]

def summaryDevTitles : List String := ["python developer", "software developer", "backend developer"]

def businessTitles : List String := ["business analyst", "business intelligence"]

def analystSummary : String :=
  "Data Analyst with strong expertise in Python, SQL, and Power BI, passionate about transforming data into actionable insights. Experienced in automating data workflows and delivering business-focused analytics solutions."

def developerSummary : String :=
  "Python Developer with experience in Django, APIs, and data processing. Skilled in building scalable applications and automating complex workflows using modern Python frameworks."

def businessSummary : String :=
  "Business Analyst with strong technical background in data analysis, process automation, and stakeholder collaboration. Experienced in translating business requirements into technical solutions."

/-- `CVGenerator._customize_summary` (the `job_keywords` parameter is
unused by the source). -/
def customize_summary (base_summary : String) (job_type : String) : String :=
  if pyLower job_type ∈ analystTitles then analystSummary
  else if pyLower job_type ∈ summaryDevTitles then developerSummary
  else if pyLower job_type ∈ businessTitles then businessSummary
  else base_summary

/-! ## `_prioritize_experience` -/

/-- The two developer titles recognised by `_prioritize_experience` and
`_prioritize_skills` (note: unlike `_customize_summary`, these lists do
not include "backend developer"). -/
def expDevTitles : List String := ["python developer", "software developer"]

def analystResponsibilities : List String :=
  [ "Automated data flows by integrating CRM systems with reporting tools via APIs, reducing manual processing time by 70%",
    "Developed end-to-end data pipelines from extraction to visualization using Python, SQL, and Power BI",
    "Collaborated with stakeholders to define KPIs and delivered actionable business insights through custom dashboards",
    "Performed data analysis and visualization to support strategic decision-making processes" ]

def developerResponsibilities : List String :=
  [ "Developed Python applications for data processing and automation using Django and APIs",
    "Implemented web scraping solutions and data extraction tools using BeautifulSoup and Pandas",
    "Built and maintained automated workflows integrating multiple systems and databases",
    "Collaborated with technical teams to deliver scalable software solutions" ]

/-- The per-entry responsibility choice made inside the loop of
`_prioritize_experience`. -/
def chooseResponsibilities (job_type : String) (exp : WorkExperience) : List String :=
  if pyLower job_type ∈ analystTitles then analystResponsibilities
  else if pyLower job_type ∈ expDevTitles then developerResponsibilities
  else exp.responsibilities

/-- `CVGenerator._prioritize_experience`: rebuilds each `WorkExperience`
with possibly substituted responsibilities. -/
def prioritize_experience (job_type : String) (exps : List WorkExperience) : List WorkExperience :=
  exps.map (fun exp =>
    { title := exp.title
      company := exp.company
      period := exp.period
      responsibilities := chooseResponsibilities job_type exp
      technologies := exp.technologies })

/-! ## `_prioritize_projects` -/

/-- `f"{project.name} {project.description} {' '.join(project.technologies)}"`. -/
def projectText (p : Project) : String :=
  p.name ++ " " ++ p.description ++ " " ++ String.intercalate " " p.technologies

/-- One iteration of the scoring loop: `project.relevance_score = <count>`.
This is an in-place attribute assignment on the `Project` object. -/
def scoreProject (job_keywords : List String) (p : Project) : Project :=
  { p with relevance_score := some (relevanceScore job_keywords (projectText p)) }

/-- The scoring loop of `_prioritize_projects`.  Because
`self.cv_data.projects.copy()` is a *shallow* copy, the list it scores
holds the very `Project` objects of the source `CVData`, so during this
phase the source profile's projects carry the `relevance_score`
attribute. -/
def scoringPhase (job_keywords : List String) (ps : List Project) : List Project :=
  ps.map (scoreProject job_keywords)

/-- `getattr(x, 'relevance_score', 0)`, the sort key. -/
def projKey (p : Project) : Nat := p.relevance_score.getD 0

/-- Stable insertion of `x` into `l` for a descending sort: `x` passes
over strictly greater keys and lands before the first key `≤` its own,
hence before any equal key already present (elements already present
come later in the original input, see `sortDescBy`). -/
def insertDescBy (key : α → Nat) (x : α) : List α → List α
  | [] => [x]
  | y :: ys => if key x < key y then y :: insertDescBy key x ys else x :: y :: ys

/-- Stable descending sort by a `Nat` key: models CPython's
`list.sort(key=..., reverse=True)`, which is stable and keeps equal-key
elements in their original relative order. -/
def sortDescBy (key : α → Nat) : List α → List α
  | [] => []
  | x :: xs => insertDescBy key x (sortDescBy key xs)

/-- `delattr(project, 'relevance_score')` (performed on every project of
the sorted list, i.e. on every shared source `Project` object). -/
def clearScore (p : Project) : Project := { p with relevance_score := none }

/-- `CVGenerator._prioritize_projects`: score, stable-sort descending by
score, then strip the transient attribute. -/
def prioritize_projects (job_keywords : List String) (ps : List Project) : List Project :=
  (sortDescBy projKey (scoringPhase job_keywords ps)).map clearScore

/-- Net in-place effect of `_prioritize_projects` on each source
`Project` object: the attribute is assigned and later deleted; the
source *list* keeps its original order (only the copy is sorted). -/
def sourceProjectsAfter (job_keywords : List String) (ps : List Project) : List Project :=
  ps.map (fun p => clearScore (scoreProject job_keywords p))

/-! ## `_prioritize_skills` -/

def analystSkillPriority : List String :=
  ["Data Analysis", "Programming", "Databases", "Visualization", "Tools", "Other"]

def developerSkillPriority : List String :=
  ["Programming", "Databases", "Tools", "Data Analysis", "Visualization", "Other"]

/-- The `priority_order` list selected by `_prioritize_skills`. -/
def skillPriorityOrder (job_type : String) (skills : List (String × List String)) : List String :=
  if pyLower job_type ∈ analystTitles then analystSkillPriority
  else if pyLower job_type ∈ expDevTitles then developerSkillPriority
  else skills.map Prod.fst

/-- `skills[c]` as an optional lookup (`none` when `c not in skills`). -/
def lookupCat (skills : List (String × List String)) (c : String) : Option (List String) :=
  (skills.find? (fun kv => kv.1 == c)).map Prod.snd

/-- `c in d` for the ordered-dict model. -/
def keyMem (d : List (String × List String)) (c : String) : Bool :=
  d.any (fun kv => kv.1 == c)

/-- `d[c] = v` on the ordered-dict model: overwrite in place when the
key exists, else append (Python dict insertion-order semantics). -/
def dictInsert (d : List (String × List String)) (c : String) (v : List String) :
    List (String × List String) :=
  if keyMem d c then d.map (fun kv => if kv.1 == c then (kv.1, v) else kv) else d ++ [(c, v)]

/-- First loop of `_prioritize_skills`:
`for category in priority_order: if category in skills: ordered_skills[category] = skills[category]`. -/
def addPriorityCats (skills : List (String × List String)) (acc : List (String × List String))
    (order : List String) : List (String × List String) :=
  order.foldl (fun acc c =>
    match lookupCat skills c with
    | some v => dictInsert acc c v
    | none => acc) acc

/-- Second loop of `_prioritize_skills`:
`for category, skill_list in skills.items(): if category not in ordered_skills: ...`. -/
def addRemainingCats (acc : List (String × List String)) (skills : List (String × List String)) :
    List (String × List String) :=
  skills.foldl (fun acc kv => if keyMem acc kv.1 then acc else acc ++ [kv]) acc

/-- `CVGenerator._prioritize_skills`. -/
def prioritize_skills (job_type : String) (skills : List (String × List String)) :
    List (String × List String) :=
  addRemainingCats (addPriorityCats skills [] (skillPriorityOrder job_type skills)) skills

/-- The entries that the first loop of `_prioritize_skills` produces
from a priority list. -/
def priorityEntries (skills : List (String × List String)) (order : List String) :
    List (String × List String) :=
  order.filterMap (fun c => (lookupCat skills c).map (fun v => (c, v)))

/-! ## `_prioritize_courses` -/

/-- `CVGenerator._prioritize_courses`: score each course title, stable
sort the `(course, score)` pairs descending by score, drop the scores. -/
def prioritize_courses (job_keywords : List String) (courses : List String) : List String :=
  (sortDescBy Prod.snd
    (courses.map (fun course => (course, relevanceScore job_keywords course)))).map Prod.fst

/-! ## `customize_for_job` -/

/-- `CVGenerator.customize_for_job`: assembles the customized `CVData`
value returned to the caller. -/
def customize_for_job (cv : CVData) (job_keywords : List String) (job_type : String) : CVData :=
  { personal_info := cv.personal_info
    summary := customize_summary cv.summary job_type
    work_experience := prioritize_experience job_type cv.work_experience
    projects := prioritize_projects job_keywords cv.projects
    education := cv.education
    skills := prioritize_skills job_type cv.skills
    courses := prioritize_courses job_keywords cv.courses
    languages := cv.languages
    additional := cv.additional }

/-- State of the *source* `CVData` after `customize_for_job` returns:
the only in-place writes anywhere in the call are the attribute
assignment and deletion on the shared `Project` objects (all other
structures are rebuilt or only shallow-copied and never written). -/
def sourceCVAfterCustomize (cv : CVData) (job_keywords : List String) : CVData :=
  { cv with projects := sourceProjectsAfter job_keywords cv.projects }

/-! ## `CVManager._dict_to_cv_data` / `_load_or_create_data` -/

/-- The persisted profile record as read by `_dict_to_cv_data`.  Each
field is `none` when its key is absent from the JSON object (a `dict`
subscript on a missing key raises `KeyError`).  Decoding of the field
*values* (`PersonalInfo(**...)` etc.) is kept abstract: the fields hold
already-typed values, since the claims concern key presence only. -/
structure RawCVDict where
  personal_info : Option PersonalInfo
  summary : Option String
  work_experience : Option (List WorkExperience)
  projects : Option (List Project)
  education : Option (List Education)
  skills : Option (List (String × List String))
  courses : Option (List String)
  languages : Option (List String)
  additional : Option (List String)

/-- `CVManager._dict_to_cv_data`: subscripts the nine required keys in
constructor-argument order; the first missing key raises `KeyError`,
which propagates to the caller (there is no handler on the path). -/
def dict_to_cv_data (d : RawCVDict) : Except String CVData :=
  match d.personal_info with
  | none => .error "KeyError: personal_info"
  | some pi =>
    match d.summary with
    | none => .error "KeyError: summary"
    | some s =>
      match d.work_experience with
      | none => .error "KeyError: work_experience"
      | some we =>
        match d.projects with
        | none => .error "KeyError: projects"
        | some prj =>
          match d.education with
          | none => .error "KeyError: education"
          | some ed =>
            match d.skills with
            | none => .error "KeyError: skills"
            | some sk =>
              match d.courses with
              | none => .error "KeyError: courses"
              | some co =>
                match d.languages with
                | none => .error "KeyError: languages"
                | some la =>
                  match d.additional with
                  | none => .error "KeyError: additional"
                  | some ad =>
                    .ok { personal_info := pi, summary := s, work_experience := we,
                          projects := prj, education := ed, skills := sk,
                          courses := co, languages := la, additional := ad }

/-- `CVManager._load_or_create_data`: parse the persisted record when
the data file exists, otherwise return the built-in default. -/
def load_or_create (fileExists : Bool) (persisted : RawCVDict) (dflt : CVData) :
    Except String CVData :=
  if fileExists then dict_to_cv_data persisted else .ok dflt

end CVGen

/-! ## Concrete sample data (used to instantiate the theorems) -/

namespace CVGen

def demoProject1 : Project :=
  { name := "Dance School Website"
    description := "Full-stack web development project with modern features"
    technologies := ["Python", "Django", "HTML/CSS", "JavaScript"]
    achievements := ["Implemented Google Maps view and blog features"] }

def demoProject2 : Project :=
  { name := "Naruto Wiki Analysis"
    description := "Data analysis and web scraping project"
    technologies := ["Python", "BeautifulSoup", "Pandas"]
    achievements := ["Delivered actionable insights through data analysis"] }

def demoExp : WorkExperience :=
  { title := "Junior Sales Analyst"
    company := "Absolvent"
    period := "2023-2025"
    responsibilities := ["Collaborated with managers to define metrics"]
    technologies := some ["Python", "SQL"] }

def demoCV : CVData :=
  { personal_info :=
      { name := "Olaf", email := "olaf@example.com", phone := "796694177"
        location := "Warsaw, PL" }
    summary := "Original summary"
    work_experience := [demoExp]
    projects := [demoProject1, demoProject2]
    education := [{ degree := "BSc Civil Engineering"
                    institution := "Lublin University of Technology"
                    period := "Completed" }]
    skills := [("Programming", ["Python", "VBA"]),
               ("Data Analysis", ["Excel", "SQL", "Power BI"]),
               ("Other", ["Git", "Linux"])]
    courses := ["SQL Bootcamp", "Excel VBA"]
    languages := ["English - B2", "Polish - Native"]
    additional := ["Driving Licence"] }

/-- A persisted record whose `personal_info` key is absent. -/
def demoRawMissing : RawCVDict :=
  { personal_info := none
    summary := some "s"
    work_experience := some []
    projects := some []
    education := some []
    skills := some []
    courses := some []
    languages := some []
    additional := some [] }

end CVGen

/-! ## Generic lemmas about the stable descending sort -/

namespace CVGen

theorem insertDescBy_perm (key : α → Nat) (x : α) (l : List α) :
    (insertDescBy key x l).Perm (x :: l) := by
  induction l with
  | nil => exact List.Perm.refl _
  | cons y ys ih =>
    unfold insertDescBy
    by_cases h : key x < key y
    · rw [if_pos h]
      exact (ih.cons y).trans (List.Perm.swap x y ys)
    · rw [if_neg h]

theorem sortDescBy_perm (key : α → Nat) (l : List α) :
    (sortDescBy key l).Perm l := by
  induction l with
  | nil => exact List.Perm.refl _
  | cons x xs ih =>
    exact (insertDescBy_perm key x (sortDescBy key xs)).trans (ih.cons x)

theorem insertDescBy_sorted (key : α → Nat) (x : α) (l : List α)
    (h : l.Pairwise (fun a b => key b ≤ key a)) :
    (insertDescBy key x l).Pairwise (fun a b => key b ≤ key a) := by
  induction l with
  | nil => simp [insertDescBy]
  | cons y ys ih =>
    rw [List.pairwise_cons] at h
    obtain ⟨hy, hys⟩ := h
    unfold insertDescBy
    by_cases hxy : key x < key y
    · rw [if_pos hxy, List.pairwise_cons]
      refine ⟨fun b hb => ?_, ih hys⟩
      rcases List.mem_cons.mp ((insertDescBy_perm key x ys).mem_iff.mp hb) with rfl | hb
      · exact Nat.le_of_lt hxy
      · exact hy b hb
    · rw [if_neg hxy, List.pairwise_cons]
      refine ⟨fun b hb => ?_, List.pairwise_cons.mpr ⟨hy, hys⟩⟩
      rcases List.mem_cons.mp hb with rfl | hb
      · exact Nat.le_of_not_lt hxy
      · exact Nat.le_trans (hy b hb) (Nat.le_of_not_lt hxy)

theorem sortDescBy_sorted (key : α → Nat) (l : List α) :
    (sortDescBy key l).Pairwise (fun a b => key b ≤ key a) := by
  induction l with
  | nil => simp [sortDescBy]
  | cons x xs ih => exact insertDescBy_sorted key x _ ih

theorem insertDescBy_filter (key : α → Nat) (s : Nat) (x : α) (l : List α) :
    (insertDescBy key x l).filter (fun a => key a == s)
      = ((x :: l).filter (fun a => key a == s)) := by
  induction l with
  | nil => rfl
  | cons y ys ih =>
    unfold insertDescBy
    by_cases hxy : key x < key y
    · rw [if_pos hxy]
      simp only [List.filter_cons] at ih ⊢
      by_cases hy : key y = s
      · by_cases hx : key x = s
        · omega
        · simp only [beq_iff_eq, hx, hy, if_true, if_false, ite_true, ite_false, if_neg hx,
            if_pos hy] at ih ⊢
          rw [ih]
      · by_cases hx : key x = s
        · simp only [beq_iff_eq, if_neg hy, if_pos hx] at ih ⊢
          rw [ih]
        · simp only [beq_iff_eq, if_neg hy, if_neg hx] at ih ⊢
          rw [ih]
    · rw [if_neg hxy]

theorem sortDescBy_filter (key : α → Nat) (s : Nat) (l : List α) :
    (sortDescBy key l).filter (fun a => key a == s) = l.filter (fun a => key a == s) := by
  induction l with
  | nil => rfl
  | cons x xs ih =>
    show (insertDescBy key x (sortDescBy key xs)).filter _ = _
    rw [insertDescBy_filter, List.filter_cons, List.filter_cons, ih]

theorem insertDescBy_map (key : β → Nat) (f : α → β) (x : α) (l : List α) :
    insertDescBy key (f x) (l.map f) = (insertDescBy (fun a => key (f a)) x l).map f := by
  induction l with
  | nil => rfl
  | cons y ys ih =>
    simp only [List.map_cons, insertDescBy]
    by_cases h : key (f x) < key (f y)
    · rw [if_pos h, if_pos h, ih, List.map_cons]
    · rw [if_neg h, if_neg h, List.map_cons, List.map_cons]

theorem sortDescBy_map (key : β → Nat) (f : α → β) (l : List α) :
    sortDescBy key (l.map f) = (sortDescBy (fun a => key (f a)) l).map f := by
  induction l with
  | nil => rfl
  | cons x xs ih =>
    show insertDescBy key (f x) (sortDescBy key (xs.map f)) = _
    rw [ih, insertDescBy_map]
    rfl

end CVGen

/-! ## Normal forms of the two reordering functions -/

namespace CVGen

theorem clearScore_scoreProject (job_keywords : List String) (p : Project)
    (h : p.relevance_score = none) : clearScore (scoreProject job_keywords p) = p := by
  cases p with
  | mk n d t a rs =>
    simp only [Project.mk.injEq] at h ⊢
    simp only [clearScore, scoreProject]
    simp_all

/-- Under the normal precondition that no input project carries the
transient attribute, `_prioritize_projects` is exactly a stable
descending sort of the input by relevance score. -/
theorem prioritize_projects_eq (job_keywords : List String) (ps : List Project)
    (h : ∀ p ∈ ps, p.relevance_score = none) :
    prioritize_projects job_keywords ps
      = sortDescBy (fun p => relevanceScore job_keywords (projectText p)) ps := by
  unfold prioritize_projects scoringPhase
  rw [sortDescBy_map, List.map_map]
  show (sortDescBy (fun p => relevanceScore job_keywords (projectText p)) ps).map
      (clearScore ∘ scoreProject job_keywords) = _
  have hid : ∀ p ∈ sortDescBy (fun p => relevanceScore job_keywords (projectText p)) ps,
      (clearScore ∘ scoreProject job_keywords) p = id p := by
    intro p hp
    exact clearScore_scoreProject job_keywords p
      (h p ((sortDescBy_perm _ ps).mem_iff.mp hp))
  rw [List.map_congr_left hid, List.map_id]

/-- `_prioritize_courses` is exactly a stable descending sort of the
course list by relevance score. -/
theorem prioritize_courses_eq (job_keywords : List String) (cs : List String) :
    prioritize_courses job_keywords cs = sortDescBy (relevanceScore job_keywords) cs := by
  unfold prioritize_courses
  rw [sortDescBy_map, List.map_map]
  show (sortDescBy (fun c => relevanceScore job_keywords c) cs).map
      (Prod.fst ∘ fun course => (course, relevanceScore job_keywords course)) = _
  have hid : (Prod.fst ∘ fun course => (course, relevanceScore job_keywords course))
      = @id String := rfl
  rw [hid, List.map_id]

end CVGen

/-! ## Structure of `_prioritize_skills` -/

namespace CVGen

theorem keyMem_append (a b : List (String × List String)) (c : String) :
    keyMem (a ++ b) c = (keyMem a c || keyMem b c) := by
  simp [keyMem, List.any_append]

theorem addRemainingCats_cons (acc : List (String × List String)) (kv : String × List String)
    (l : List (String × List String)) :
    addRemainingCats acc (kv :: l)
      = addRemainingCats (if keyMem acc kv.1 then acc else acc ++ [kv]) l := rfl

theorem addPriorityCats_cons (skills acc : List (String × List String)) (c : String)
    (order : List String) :
    addPriorityCats skills acc (c :: order)
      = addPriorityCats skills
          (match lookupCat skills c with
           | some v => dictInsert acc c v
           | none => acc) order := rfl

theorem addRemainingCats_eq (l : List (String × List String)) :
    ∀ acc, (l.map Prod.fst).Nodup →
      addRemainingCats acc l = acc ++ l.filter (fun kv => ! keyMem acc kv.1) := by
  induction l with
  | nil =>
    intro acc _
    simp [addRemainingCats]
  | cons kv l ih =>
    intro acc hnd
    rw [List.map_cons, List.nodup_cons] at hnd
    obtain ⟨hk, hnd⟩ := hnd
    rw [addRemainingCats_cons]
    by_cases h : keyMem acc kv.1
    · rw [if_pos h, ih acc hnd, List.filter_cons]
      simp [h]
    · rw [if_neg h, ih (acc ++ [kv]) hnd, List.filter_cons]
      have hfil : l.filter (fun kv' => ! keyMem (acc ++ [kv]) kv'.1)
          = l.filter (fun kv' => ! keyMem acc kv'.1) := by
        apply List.filter_congr
        intro kv' hkv'
        have hne : kv.1 ≠ kv'.1 := by
          intro he
          exact hk (he ▸ List.mem_map_of_mem Prod.fst hkv')
        simp [keyMem_append, keyMem, hne]
      rw [hfil]
      have h' : (! keyMem acc kv.1) = true := by simp [h]
      rw [if_pos h', List.append_assoc]
      rfl

theorem addPriorityCats_eq (skills : List (String × List String)) (order : List String) :
    ∀ acc, order.Nodup → (∀ c ∈ order, keyMem acc c = false) →
      addPriorityCats skills acc order
        = acc ++ order.filterMap (fun c => (lookupCat skills c).map (fun v => (c, v))) := by
  induction order with
  | nil =>
    intro acc _ _
    simp [addPriorityCats]
  | cons c order ih =>
    intro acc hnd hmem
    rw [List.nodup_cons] at hnd
    obtain ⟨hc, hnd⟩ := hnd
    rw [addPriorityCats_cons]
    cases hl : lookupCat skills c with
    | none =>
      show addPriorityCats skills acc order = _
      rw [ih acc hnd (fun c' h' => hmem c' (List.mem_cons_of_mem c h')), List.filterMap_cons, hl]
      simp
    | some v =>
      have hkm : keyMem acc c = false := hmem c (List.mem_cons_self c order)
      have hins : dictInsert acc c v = acc ++ [(c, v)] := by
        rw [dictInsert, if_neg (by simp [hkm])]
      show addPriorityCats skills (dictInsert acc c v) order = _
      rw [hins, ih (acc ++ [(c, v)]) hnd ?side, List.filterMap_cons, hl, List.append_assoc]
      · simp
      case side =>
        intro c' h'
        have h1 : keyMem acc c' = false := hmem c' (List.mem_cons_of_mem c h')
        have h2 : c ≠ c' := fun he => hc (he ▸ h')
        rw [keyMem_append, h1]
        simp [keyMem, h2]

end CVGen

namespace CVGen

theorem keyMem_cons (kv : String × List String) (d : List (String × List String)) (c : String) :
    keyMem (kv :: d) c = ((kv.1 == c) || keyMem d c) := by
  simp [keyMem]

theorem lookupCat_cons_self (kv : String × List String) (l : List (String × List String)) :
    lookupCat (kv :: l) kv.1 = some kv.2 := by
  simp [lookupCat, List.find?_cons]

theorem lookupCat_cons_ne (kv : String × List String) (l : List (String × List String))
    (c : String) (h : kv.1 ≠ c) : lookupCat (kv :: l) c = lookupCat l c := by
  simp [lookupCat, List.find?_cons, h]

theorem keyMem_priorityEntries (skills : List (String × List String)) (order : List String)
    (c : String) :
    keyMem (priorityEntries skills order) c
      = (decide (c ∈ order) && (lookupCat skills c).isSome) := by
  induction order with
  | nil => simp [priorityEntries, keyMem]
  | cons c' order ih =>
    rw [priorityEntries, List.filterMap_cons]
    rw [priorityEntries] at ih
    cases hl : lookupCat skills c' with
    | none =>
      by_cases h : c' = c
      · subst h
        simp [ih, hl]
      · simp [ih, h, Ne.symm h]
    | some v =>
      by_cases h : c' = c
      · subst h
        simp [keyMem_cons, hl]
      · simp [keyMem_cons, ih, h, Ne.symm h]

theorem mem_priorityEntries (skills : List (String × List String)) (order : List String)
    (kv : String × List String) :
    kv ∈ priorityEntries skills order
      ↔ kv.1 ∈ order ∧ lookupCat skills kv.1 = some kv.2 := by
  rw [priorityEntries, List.mem_filterMap]
  constructor
  · rintro ⟨c, hc, heq⟩
    rw [Option.map_eq_some'] at heq
    obtain ⟨v, hv, hkv⟩ := heq
    subst hkv
    exact ⟨hc, hv⟩
  · rintro ⟨h1, h2⟩
    refine ⟨kv.1, h1, ?_⟩
    rw [h2, Option.map_some']

theorem nodup_priorityEntries (skills : List (String × List String)) (order : List String)
    (h : order.Nodup) : (priorityEntries skills order).Nodup := by
  apply List.Nodup.filterMap _ h
  intro a a' b hb hb'
  rw [Option.mem_def, Option.map_eq_some'] at hb hb'
  obtain ⟨v, _, hv⟩ := hb
  obtain ⟨v', _, hv'⟩ := hb'
  exact (congrArg Prod.fst hv).trans (congrArg Prod.fst hv').symm

theorem lookupCat_eq_some_iff (skills : List (String × List String))
    (h : (skills.map Prod.fst).Nodup) (c : String) (v : List String) :
    lookupCat skills c = some v ↔ (c, v) ∈ skills := by
  induction skills with
  | nil => simp [lookupCat]
  | cons kv l ih =>
    rw [List.map_cons, List.nodup_cons] at h
    obtain ⟨hk, hnd⟩ := h
    by_cases hh : kv.1 = c
    · rw [← hh, lookupCat_cons_self]
      constructor
      · intro he
        rw [Option.some.injEq] at he
        rw [← he]
        exact List.mem_cons_self kv l
      · intro he
        rcases List.mem_cons.mp he with he | he
        · have h2 : v = kv.2 := congrArg Prod.snd he
          rw [h2]
        · exact absurd (List.mem_map_of_mem Prod.fst he) hk
    · rw [lookupCat_cons_ne kv l c hh, ih hnd, List.mem_cons]
      constructor
      · exact Or.inr
      · rintro (he | he)
        · exact absurd (congrArg Prod.fst he).symm hh
        · exact he

theorem lookupCat_isSome_of_mem (skills : List (String × List String))
    (kv : String × List String) (h : kv ∈ skills) : (lookupCat skills kv.1).isSome := by
  rw [lookupCat, Option.isSome_map', List.find?_isSome]
  exact ⟨kv, h, by simp⟩

theorem priorityEntries_self (skills : List (String × List String))
    (h : (skills.map Prod.fst).Nodup) :
    priorityEntries skills (skills.map Prod.fst) = skills := by
  induction skills with
  | nil => rfl
  | cons kv l ih =>
    rw [List.map_cons, List.nodup_cons] at h
    obtain ⟨hk, hnd⟩ := h
    have hhead : lookupCat (kv :: l) kv.1 = some kv.2 := lookupCat_cons_self kv l
    have hstep : priorityEntries (kv :: l) (List.map Prod.fst (kv :: l))
        = (kv.1, kv.2) :: (l.map Prod.fst).filterMap
            (fun c => (lookupCat (kv :: l) c).map (fun v => (c, v))) := by
      rw [priorityEntries, List.map_cons, List.filterMap_cons, hhead]
      rfl
    have htail : (l.map Prod.fst).filterMap
          (fun c => (lookupCat (kv :: l) c).map (fun v => (c, v)))
        = (l.map Prod.fst).filterMap (fun c => (lookupCat l c).map (fun v => (c, v))) := by
      apply List.filterMap_congr
      intro c hc
      have hne : kv.1 ≠ c := fun he => hk (he ▸ hc)
      rw [lookupCat_cons_ne kv l c hne]
    rw [hstep, htail]
    rw [priorityEntries] at ih
    rw [ih hnd]

end CVGen

namespace CVGen

theorem skillPriorityOrder_nodup (job_type : String) (skills : List (String × List String))
    (h : (skills.map Prod.fst).Nodup) : (skillPriorityOrder job_type skills).Nodup := by
  unfold skillPriorityOrder
  split_ifs
  · decide
  · decide
  · exact h

/-- `_prioritize_skills` is exactly: the categories of the selected
priority list that exist in the mapping, in priority order, followed by
the remaining categories in their original relative order. -/
theorem prioritize_skills_eq (job_type : String) (skills : List (String × List String))
    (h : (skills.map Prod.fst).Nodup) :
    prioritize_skills job_type skills
      = priorityEntries skills (skillPriorityOrder job_type skills)
        ++ skills.filter
            (fun kv => ! decide (kv.1 ∈ skillPriorityOrder job_type skills)) := by
  have hord := skillPriorityOrder_nodup job_type skills h
  rw [prioritize_skills,
    addPriorityCats_eq skills (skillPriorityOrder job_type skills) [] hord
      (fun c _ => rfl),
    List.nil_append]
  show addRemainingCats (priorityEntries skills (skillPriorityOrder job_type skills)) skills = _
  rw [addRemainingCats_eq skills (priorityEntries skills (skillPriorityOrder job_type skills)) h]
  have hfil : skills.filter
        (fun kv => ! keyMem (priorityEntries skills (skillPriorityOrder job_type skills)) kv.1)
      = skills.filter
        (fun kv => ! decide (kv.1 ∈ skillPriorityOrder job_type skills)) := by
    apply List.filter_congr
    intro kv hkv
    rw [keyMem_priorityEntries, lookupCat_isSome_of_mem skills kv hkv, Bool.and_true]
  rw [hfil]

theorem prioritize_skills_perm (job_type : String) (skills : List (String × List String))
    (h : (skills.map Prod.fst).Nodup) :
    (prioritize_skills job_type skills).Perm skills := by
  have hord := skillPriorityOrder_nodup job_type skills h
  rw [prioritize_skills_eq job_type skills h]
  have h1 : (priorityEntries skills (skillPriorityOrder job_type skills)).Perm
      (skills.filter (fun kv => decide (kv.1 ∈ skillPriorityOrder job_type skills))) := by
    rw [List.perm_ext_iff_of_nodup (nodup_priorityEntries skills _ hord)
      ((List.Nodup.of_map Prod.fst h).filter _)]
    intro kv
    rw [mem_priorityEntries, List.mem_filter]
    constructor
    · rintro ⟨ho, hl⟩
      exact ⟨(lookupCat_eq_some_iff skills h kv.1 kv.2).mp hl, by simp [ho]⟩
    · rintro ⟨hm, ho⟩
      exact ⟨by simpa using ho, (lookupCat_eq_some_iff skills h kv.1 kv.2).mpr hm⟩
  exact (h1.append_right _).trans
    (List.filter_append_perm (fun kv => decide (kv.1 ∈ skillPriorityOrder job_type skills)) skills)

theorem prioritize_skills_default (job_type : String) (skills : List (String × List String))
    (h : (skills.map Prod.fst).Nodup)
    (h1 : pyLower job_type ∉ analystTitles) (h2 : pyLower job_type ∉ expDevTitles) :
    prioritize_skills job_type skills = skills := by
  have hord : skillPriorityOrder job_type skills = skills.map Prod.fst := by
    rw [skillPriorityOrder, if_neg h1, if_neg h2]
  rw [prioritize_skills_eq job_type skills h, hord, priorityEntries_self skills h]
  have hnil : skills.filter (fun kv => ! decide (kv.1 ∈ skills.map Prod.fst)) = [] := by
    rw [List.filter_eq_nil_iff]
    intro kv hkv
    simp [List.mem_map_of_mem Prod.fst hkv]
  rw [hnil, List.append_nil]

end CVGen

namespace CVGen

theorem sourceProjectsAfter_eq (job_keywords : List String) (ps : List Project)
    (h : ∀ p ∈ ps, p.relevance_score = none) :
    sourceProjectsAfter job_keywords ps = ps := by
  rw [sourceProjectsAfter]
  have hid : ∀ p ∈ ps, clearScore (scoreProject job_keywords p) = id p := fun p hp =>
    clearScore_scoreProject job_keywords p (h p hp)
  rw [List.map_congr_left hid, List.map_id]

theorem sourceCVAfterCustomize_eq (cv : CVData) (job_keywords : List String)
    (h : ∀ p ∈ cv.projects, p.relevance_score = none) :
    sourceCVAfterCustomize cv job_keywords = cv := by
  rw [sourceCVAfterCustomize, sourceProjectsAfter_eq job_keywords cv.projects h]

theorem dict_ok_requires (d : RawCVDict) (cv : CVData) (h : dict_to_cv_data d = .ok cv) :
    d.personal_info.isSome ∧ d.summary.isSome ∧ d.work_experience.isSome
    ∧ d.projects.isSome ∧ d.education.isSome ∧ d.skills.isSome
    ∧ d.courses.isSome ∧ d.languages.isSome ∧ d.additional.isSome := by
  rw [dict_to_cv_data] at h
  cases hp : d.personal_info with
  | none => rw [hp] at h; exact absurd h (by simp)
  | some pi =>
  rw [hp] at h
  cases h1 : d.summary with
  | none => rw [h1] at h; exact absurd h (by simp)
  | some s =>
  rw [h1] at h
  cases h2 : d.work_experience with
  | none => rw [h2] at h; exact absurd h (by simp)
  | some we =>
  rw [h2] at h
  cases h3 : d.projects with
  | none => rw [h3] at h; exact absurd h (by simp)
  | some prj =>
  rw [h3] at h
  cases h4 : d.education with
  | none => rw [h4] at h; exact absurd h (by simp)
  | some ed =>
  rw [h4] at h
  cases h5 : d.skills with
  | none => rw [h5] at h; exact absurd h (by simp)
  | some sk =>
  rw [h5] at h
  cases h6 : d.courses with
  | none => rw [h6] at h; exact absurd h (by simp)
  | some co =>
  rw [h6] at h
  cases h7 : d.languages with
  | none => rw [h7] at h; exact absurd h (by simp)
  | some la =>
  rw [h7] at h
  cases h8 : d.additional with
  | none => rw [h8] at h; exact absurd h (by simp)
  | some ad =>
  simp [hp, h1, h2, h3, h4, h5, h6, h7, h8]

end CVGen

/-! ## Claim theorems -/

namespace CVGen

set_option maxRecDepth 10000

/-- C4: the relevance score of a text against a keyword list equals the number
of keywords that occur as a case-insensitive substring anywhere in the text
(`occursSpec` transcribes the spec's wording); each keyword contributes at most
1 however often it appears in the text, so the score never exceeds the number
of keywords.  The function is pure, so determinism is immediate. -/
theorem claim_C4_score (job_keywords : List String) (text : String) :
    relevanceScore job_keywords text
      = (job_keywords.filter (fun k => decide (occursSpec k text))).length
    ∧ relevanceScore job_keywords text ≤ job_keywords.length := by
  have hpt : ∀ k, kwMatch k text = decide (occursSpec k text) := by
    intro k
    rw [kwMatch, decide_eq_decide]
    rw [occursSpec, pyLower, pyLower]
  constructor
  · rw [relevanceScore, List.countP_eq_length_filter]
    exact congrArg List.length (List.filter_congr (fun k _ => hpt k))
  · rw [relevanceScore]
    exact List.countP_le_length _

/-- C5 counterexample: `[""]` is a non-empty keyword list, yet scoring the
empty text against it yields 1, not 0 (the empty keyword is a substring of
every text, including the empty one), refuting the claim's second half. -/
theorem claim_C5_counterexample :
    ([""] : List String) ≠ [] ∧ relevanceScore [""] "" ≠ 0 := by decide

/-- C5 (amended): scoring any text against the empty keyword list yields 0, and
scoring the empty text yields 0 against any keyword list all of whose keywords
are non-empty. -/
theorem claim_C5_empty (text : String) (job_keywords : List String)
    (h : ∀ k ∈ job_keywords, k ≠ "") :
    relevanceScore [] text = 0 ∧ relevanceScore job_keywords "" = 0 := by
  refine ⟨rfl, ?_⟩
  rw [relevanceScore, List.countP_eq_zero]
  intro k hk
  rw [kwMatch]
  simp only [decide_eq_true_eq]
  intro hinf
  have hmap : k.data.map Char.toLower = [] := by
    have h0 : (pyLower k).data <:+: ([] : List Char) := hinf
    exact List.infix_nil.mp h0
  rw [List.map_eq_nil_iff] at hmap
  exact h k hk (String.ext hmap)

/-- C5 witness: the amended statement at a concrete input. -/
theorem claim_C5_witness :
    (∀ k ∈ ["sql", "python"], k ≠ "")
    ∧ relevanceScore [] "hello" = 0 ∧ relevanceScore ["sql", "python"] "" = 0 :=
  ⟨by decide, claim_C5_empty "hello" ["sql", "python"] (by decide)⟩

/-- C7: `customize_for_job` is a pure function of the profile and the job
request, so two calls with equal inputs return structurally equal
(deep-equal) outputs. -/
theorem claim_C7_deterministic (cv1 cv2 : CVData) (kws1 kws2 : List String)
    (jt1 jt2 : String) (hcv : cv1 = cv2) (hk : kws1 = kws2) (ht : jt1 = jt2) :
    customize_for_job cv1 kws1 jt1 = customize_for_job cv2 kws2 jt2 := by
  rw [hcv, hk, ht]

/-- C7 witness at a concrete profile and job request. -/
theorem claim_C7_witness :
    customize_for_job demoCV ["python", "sql"] "Data Analyst"
      = customize_for_job demoCV ["python", "sql"] "Data Analyst" :=
  claim_C7_deterministic demoCV demoCV ["python", "sql"] ["python", "sql"]
    "Data Analyst" "Data Analyst" rfl rfl rfl

end CVGen

namespace CVGen

set_option maxRecDepth 10000

/-- C1: for every job request, the projects list returned by
`_prioritize_projects` (when no input project carries the transient attribute,
as is the case for every profile the program builds) and the courses list
returned by `_prioritize_courses` are sorted in descending order of relevance
score against the job keywords, and the sort is stable: for every score value,
the sublist of elements with that score is exactly the corresponding sublist of
the input, so equal-score elements keep their input relative order. -/
theorem claim_C1_sorted_stable (job_keywords : List String) (ps : List Project)
    (cs : List String) (h : ∀ p ∈ ps, p.relevance_score = none) :
    ((prioritize_projects job_keywords ps).Pairwise
        (fun a b => relevanceScore job_keywords (projectText b)
          ≤ relevanceScore job_keywords (projectText a))
      ∧ ∀ s : Nat, (prioritize_projects job_keywords ps).filter
            (fun p => relevanceScore job_keywords (projectText p) == s)
          = ps.filter (fun p => relevanceScore job_keywords (projectText p) == s))
    ∧ ((prioritize_courses job_keywords cs).Pairwise
        (fun a b => relevanceScore job_keywords b ≤ relevanceScore job_keywords a)
      ∧ ∀ s : Nat, (prioritize_courses job_keywords cs).filter
            (fun c => relevanceScore job_keywords c == s)
          = cs.filter (fun c => relevanceScore job_keywords c == s)) := by
  refine ⟨⟨?_, ?_⟩, ⟨?_, ?_⟩⟩
  · rw [prioritize_projects_eq job_keywords ps h]
    exact sortDescBy_sorted _ ps
  · intro s
    rw [prioritize_projects_eq job_keywords ps h]
    exact sortDescBy_filter _ s ps
  · rw [prioritize_courses_eq]
    exact sortDescBy_sorted _ cs
  · intro s
    rw [prioritize_courses_eq]
    exact sortDescBy_filter _ s cs

/-- C1 witness: the spec's own scenario (projects with "Django" vs
"Pandas"/"BeautifulSoup", keywords pandas/beautifulsoup). -/
theorem claim_C1_witness :
    (∀ p ∈ [demoProject1, demoProject2], p.relevance_score = none)
    ∧ (prioritize_projects ["pandas", "beautifulsoup"] [demoProject1, demoProject2]).Pairwise
        (fun a b => relevanceScore ["pandas", "beautifulsoup"] (projectText b)
          ≤ relevanceScore ["pandas", "beautifulsoup"] (projectText a)) :=
  ⟨by decide,
   (claim_C1_sorted_stable ["pandas", "beautifulsoup"] [demoProject1, demoProject2]
     ["SQL Bootcamp", "Excel VBA"] (by decide)).1.1⟩

/-- C10: the projects and courses lists of the customized output are
permutations of the inputs (same length, same multiset of elements): nothing is
added, dropped or filtered by `_prioritize_projects` / `_prioritize_courses`. -/
theorem claim_C10_permutation (job_keywords : List String) (ps : List Project)
    (cs : List String) (h : ∀ p ∈ ps, p.relevance_score = none) :
    (prioritize_projects job_keywords ps).Perm ps
    ∧ (prioritize_projects job_keywords ps).length = ps.length
    ∧ (prioritize_courses job_keywords cs).Perm cs
    ∧ (prioritize_courses job_keywords cs).length = cs.length := by
  have hp : (prioritize_projects job_keywords ps).Perm ps := by
    rw [prioritize_projects_eq job_keywords ps h]
    exact sortDescBy_perm _ ps
  have hc : (prioritize_courses job_keywords cs).Perm cs := by
    rw [prioritize_courses_eq]
    exact sortDescBy_perm _ cs
  exact ⟨hp, hp.length_eq, hc, hc.length_eq⟩

/-- C10 witness at the sample profile. -/
theorem claim_C10_witness :
    (∀ p ∈ demoCV.projects, p.relevance_score = none)
    ∧ (prioritize_projects ["python"] demoCV.projects).length = demoCV.projects.length :=
  ⟨by decide,
   (claim_C10_permutation ["python"] demoCV.projects ["SQL Bootcamp"] (by decide)).2.1⟩

end CVGen

namespace CVGen

set_option maxRecDepth 10000

/-- C2 counterexample: the claim says no relevance score is ever attached to a
Project belonging to the source Profile at any point.  But the list scored by
`_prioritize_projects` is only a shallow copy, so during the scoring phase the
very Project objects of the source profile (here: both sample projects, which
start without the attribute) carry `relevance_score`. -/
theorem claim_C2_counterexample :
    (∀ p ∈ [demoProject1, demoProject2], p.relevance_score = none)
    ∧ ∀ q ∈ scoringPhase ["python"] [demoProject1, demoProject2],
        q.relevance_score ≠ none := by decide

/-- C2 (amended): `customize_for_job` restores the source profile before
returning — given that no source project carries the transient attribute on
entry, the net in-place effect on the source `CVData` (attribute assignment
followed by deletion on each shared Project; nothing else is written in place)
is the identity, so the source is deep-equal to its original value after the
call; but during the scoring phase each shared source Project does carry the
relevance score. -/
theorem claim_C2_source_restored (cv : CVData) (job_keywords : List String)
    (h : ∀ p ∈ cv.projects, p.relevance_score = none) :
    sourceCVAfterCustomize cv job_keywords = cv
    ∧ ∀ p ∈ cv.projects, (scoreProject job_keywords p).relevance_score
        = some (relevanceScore job_keywords (projectText p)) :=
  ⟨sourceCVAfterCustomize_eq cv job_keywords h, fun _ _ => rfl⟩

/-- C2 witness at the sample profile. -/
theorem claim_C2_witness :
    (∀ p ∈ demoCV.projects, p.relevance_score = none)
    ∧ sourceCVAfterCustomize demoCV ["python"] = demoCV :=
  ⟨by decide, (claim_C2_source_restored demoCV ["python"] (by decide)).1⟩

/-- C3 counterexample: "backend developer" is one of the summary categories
(the summary is replaced by the developer summary), yet
`_prioritize_experience` does not recognise it and keeps the original
responsibilities — so responsibility substitution does not use the same fixed
categories as summary selection. -/
theorem claim_C3_counterexample :
    customize_summary "Original summary" "Backend Developer" = developerSummary
    ∧ developerSummary ≠ "Original summary"
    ∧ prioritize_experience "Backend Developer" [demoExp] = [demoExp]
    ∧ demoExp.responsibilities ≠ analystResponsibilities
    ∧ demoExp.responsibilities ≠ developerResponsibilities := by decide

/-- C3 (amended): `_prioritize_experience` recognises only two groups —
"data analyst"/"data scientist"/"analytics" (fixed analyst list) and
"python developer"/"software developer" (fixed developer list); every other
title, including "backend developer", "business analyst" and "business
intelligence", keeps the original responsibilities.  Title, company, period
and technologies of each entry, and the order of entries, are preserved. -/
theorem claim_C3_responsibilities (job_type : String) (exps : List WorkExperience) :
    (prioritize_experience job_type exps).length = exps.length
    ∧ ∀ i (h1 : i < (prioritize_experience job_type exps).length) (h2 : i < exps.length),
        ((prioritize_experience job_type exps).get ⟨i, h1⟩).title = (exps.get ⟨i, h2⟩).title
        ∧ ((prioritize_experience job_type exps).get ⟨i, h1⟩).company
            = (exps.get ⟨i, h2⟩).company
        ∧ ((prioritize_experience job_type exps).get ⟨i, h1⟩).period
            = (exps.get ⟨i, h2⟩).period
        ∧ ((prioritize_experience job_type exps).get ⟨i, h1⟩).technologies
            = (exps.get ⟨i, h2⟩).technologies
        ∧ ((prioritize_experience job_type exps).get ⟨i, h1⟩).responsibilities
            = (if pyLower job_type ∈ analystTitles then analystResponsibilities
               else if pyLower job_type ∈ expDevTitles then developerResponsibilities
               else (exps.get ⟨i, h2⟩).responsibilities) := by
  refine ⟨by rw [prioritize_experience, List.length_map], ?_⟩
  intro i h1 h2
  simp [prioritize_experience, chooseResponsibilities]

/-- C3 witness: the amended statement at "backend developer" and entry 0. -/
theorem claim_C3_witness :
    (prioritize_experience "Backend Developer" [demoExp]).length = ([demoExp] : List WorkExperience).length
    ∧ ((prioritize_experience "Backend Developer" [demoExp]).get ⟨0, by decide⟩).responsibilities
        = (if pyLower "Backend Developer" ∈ analystTitles then analystResponsibilities
           else if pyLower "Backend Developer" ∈ expDevTitles then developerResponsibilities
           else (([demoExp] : List WorkExperience).get ⟨0, by decide⟩).responsibilities) :=
  ⟨(claim_C3_responsibilities "Backend Developer" [demoExp]).1,
   ((claim_C3_responsibilities "Backend Developer" [demoExp]).2 0 (by decide) (by decide)).2.2.2.2⟩

end CVGen

namespace CVGen

set_option maxRecDepth 10000

/-- C6: given the dict invariant that category names are unique,
`_prioritize_skills` returns a permutation of the input mapping's entries
(no category added, removed or renamed, each mapped to its original skill
list); structurally it is the priority categories that exist in the mapping,
in priority order, followed by all remaining categories in their original
relative order; and for a job title matching no category the result is
exactly the original mapping. -/
theorem claim_C6_skills (job_type : String) (skills : List (String × List String))
    (h : (skills.map Prod.fst).Nodup) :
    (prioritize_skills job_type skills).Perm skills
    ∧ prioritize_skills job_type skills
        = priorityEntries skills (skillPriorityOrder job_type skills)
          ++ skills.filter (fun kv => ! decide (kv.1 ∈ skillPriorityOrder job_type skills))
    ∧ (pyLower job_type ∉ analystTitles → pyLower job_type ∉ expDevTitles →
        prioritize_skills job_type skills = skills) :=
  ⟨prioritize_skills_perm job_type skills h, prioritize_skills_eq job_type skills h,
   prioritize_skills_default job_type skills h⟩

/-- C6 witness at the sample skills mapping. -/
theorem claim_C6_witness :
    (demoCV.skills.map Prod.fst).Nodup
    ∧ (prioritize_skills "Data Analyst" demoCV.skills).Perm demoCV.skills :=
  ⟨by decide, (claim_C6_skills "Data Analyst" demoCV.skills (by decide)).1⟩

/-- C8: loading a persisted record that is missing any of the nine required
keys fails — the `KeyError` escapes `_dict_to_cv_data` and
`_load_or_create_data` to the caller, and no `CVData` value is produced. -/
theorem claim_C8_missing_key (d : RawCVDict) (dflt : CVData)
    (h : d.personal_info = none ∨ d.summary = none ∨ d.work_experience = none
      ∨ d.projects = none ∨ d.education = none ∨ d.skills = none
      ∨ d.courses = none ∨ d.languages = none ∨ d.additional = none) :
    ∀ cv : CVData, load_or_create true d dflt ≠ Except.ok cv := by
  intro cv hcv
  rw [load_or_create, if_pos rfl] at hcv
  have hreq := dict_ok_requires d cv hcv
  rcases h with h|h|h|h|h|h|h|h|h <;> rw [h] at hreq <;> simp at hreq

/-- C8 witness: a record missing `personal_info` never loads. -/
theorem claim_C8_witness :
    demoRawMissing.personal_info = none
    ∧ ∀ cv : CVData, load_or_create true demoRawMissing demoCV ≠ Except.ok cv :=
  ⟨rfl, claim_C8_missing_key demoRawMissing demoCV (Or.inl rfl)⟩

/-- C9: category matching is exact equality of the whole lowercased job title
against the fixed literals — any title that is not exactly one of them (after
lowercasing) makes summary selection, responsibility substitution and skill
reordering all take their default branch, keeping the original content and
order. -/
theorem claim_C9_exact_match (job_type base_summary : String)
    (exps : List WorkExperience) (skills : List (String × List String))
    (h1 : pyLower job_type ∉ analystTitles)
    (h2 : pyLower job_type ∉ summaryDevTitles)
    (h3 : pyLower job_type ∉ businessTitles) :
    customize_summary base_summary job_type = base_summary
    ∧ prioritize_experience job_type exps = exps
    ∧ ((skills.map Prod.fst).Nodup → prioritize_skills job_type skills = skills) := by
  have h2' : pyLower job_type ∉ expDevTitles := fun hm =>
    h2 ((show expDevTitles ⊆ summaryDevTitles by decide) hm)
  refine ⟨?_, ?_, ?_⟩
  · rw [customize_summary, if_neg h1, if_neg h2, if_neg h3]
  · rw [prioritize_experience]
    have hmap : ∀ e ∈ exps,
        ({ title := e.title, company := e.company, period := e.period,
           responsibilities := chooseResponsibilities job_type e,
           technologies := e.technologies } : WorkExperience) = id e := by
      intro e _
      rw [chooseResponsibilities, if_neg h1, if_neg h2']
      rfl
    rw [List.map_congr_left hmap, List.map_id]
  · intro hnd
    exact prioritize_skills_default job_type skills hnd h1 h2'

/-- C9 witness: "Senior Data Analyst" (a strict superstring of a category) and
a title with trailing space both take the default branches. -/
theorem claim_C9_witness :
    (pyLower "Senior Data Analyst" ∉ analystTitles
      ∧ pyLower "Senior Data Analyst" ∉ summaryDevTitles
      ∧ pyLower "Senior Data Analyst" ∉ businessTitles
      ∧ customize_summary "Original summary" "Senior Data Analyst" = "Original summary"
      ∧ prioritize_experience "Senior Data Analyst" [demoExp] = [demoExp])
    ∧ (pyLower "data analyst " ∉ analystTitles
      ∧ customize_summary "Original summary" "data analyst " = "Original summary") :=
  ⟨⟨by decide, by decide, by decide,
    (claim_C9_exact_match "Senior Data Analyst" "Original summary" [demoExp] demoCV.skills
      (by decide) (by decide) (by decide)).1,
    (claim_C9_exact_match "Senior Data Analyst" "Original summary" [demoExp] demoCV.skills
      (by decide) (by decide) (by decide)).2.1⟩,
   ⟨by decide,
    (claim_C9_exact_match "data analyst " "Original summary" [demoExp] demoCV.skills
      (by decide) (by decide) (by decide)).1⟩⟩

end CVGen
